import Mathlib

/-!
Verification of the kagenti-extensions request-processing core and admission
webhook against their specification.

The repository snapshot contains the admission-webhook injector source
(`kagenti-webhook/internal/webhook/injector/pod_mutator.go`), which is
embedded directly below.  The traffic-direction-aware request processor
(bypass matcher, inbound validator, outbound exchanger, signing-key cache,
credential bootstrap) ships only as documentation in this snapshot, so those
components are modelled from the specification text, as flagged on each
definition.
-/

namespace KagentiExtensions

/-- Paths, patterns and header values are modelled as lists of characters. -/
abbrev Str := List Char

/-- Convert a Lean string literal to the character-list representation. -/
def str (s : String) : Str := s.data

namespace Bypass

/-- Modelled from the spec: "The path is taken from the request target with
any query string removed (split on first `?`)." -/
def stripQuery (path : Str) : Str := path.takeWhile (fun c => c ≠ '?')

/-- Modelled from the spec: a pattern is a wildcard pattern when it is "a
path ending in a single trailing wildcard segment", i.e. ends in `/*`. -/
def wildcard (pat : Str) : Bool :=
  match pat.reverse with
  | '*' :: '/' :: _ => true
  | _ => false

/-- Modelled from the spec: "A pattern with no trailing `/*` matches only on
exact equality with the stripped path.  A pattern of the form `prefix/*`
matches the stripped path `p` iff `p` starts with `prefix/` (literally, the
pattern's text minus the trailing `*`) and the remainder of `p` after that
prefix contains no further `/` character." -/
def matchesPat (pat p : Str) : Bool :=
  if wildcard pat then
    let pre := pat.dropLast
    pre.isPrefixOf p && !((p.drop pre.length).contains '/')
  else pat == p

/-- Modelled from the spec: `matches(path)` strips the query, treats an empty
request path as never matching any configured pattern, and otherwise tries
the configured patterns in order. -/
def bypassMatches (patterns : List Str) (path : Str) : Bool :=
  let p := stripQuery path
  if p.isEmpty then false
  else patterns.any (fun pat => matchesPat pat p)

theorem wildcard_concat (pre : Str) : wildcard (pre ++ ['/', '*']) = true := by
  simp [wildcard]

theorem dropLast_concat_two (pre : Str) :
    (pre ++ ['/', '*']).dropLast = pre ++ ['/'] := by
  have h : pre ++ ['/', '*'] = (pre ++ ['/']) ++ ['*'] := by simp
  rw [h]
  exact List.dropLast_concat ..

theorem isPrefixOf_nil_eq (l : Str) (h : l ≠ []) : l.isPrefixOf [] = false := by
  obtain ⟨a, t, rfl⟩ := List.exists_cons_of_ne_nil h
  rfl

end Bypass

end KagentiExtensions

namespace KagentiExtensions

/-- C4: for every wildcard pattern `prefix/*` and every request path,
`matches` is true iff the query-stripped path starts with `prefix/` and the
remainder after that prefix contains no further `/`; in particular
`/.well-known/*` matches `/.well-known/agent.json` but matches neither
`/.well-known/a/b` nor `/api/data`. -/
theorem bypass_wildcard_matches_iff (pre path : Str) :
    (Bypass.bypassMatches [pre ++ ['/', '*']] path =
      ((pre ++ ['/']).isPrefixOf (Bypass.stripQuery path)
        && !(((Bypass.stripQuery path).drop (pre.length + 1)).contains '/'))) ∧
    Bypass.bypassMatches [str "/.well-known/*"] (str "/.well-known/agent.json") = true ∧
    Bypass.bypassMatches [str "/.well-known/*"] (str "/.well-known/a/b") = false ∧
    Bypass.bypassMatches [str "/.well-known/*"] (str "/api/data") = false := by
  refine ⟨?_, by decide, by decide, by decide⟩
  unfold Bypass.bypassMatches
  by_cases hp : (Bypass.stripQuery path).isEmpty
  · rw [if_pos hp]
    have hnil : Bypass.stripQuery path = [] := by
      simpa [List.isEmpty_iff] using hp
    rw [hnil]
    rw [Bypass.isPrefixOf_nil_eq (pre ++ ['/']) (by simp)]
    simp
  · rw [if_neg hp]
    simp only [List.any_cons, List.any_nil, Bool.or_false]
    unfold Bypass.matchesPat
    rw [if_pos (Bypass.wildcard_concat pre)]
    rw [Bypass.dropLast_concat_two]
    simp

/-- C5: an empty or nil pattern list matches no path (including `/healthz`),
and a request whose stripped path is empty matches no configured pattern. -/
theorem bypass_empty_semantics :
    (∀ path : Str, Bypass.bypassMatches [] path = false) ∧
    (∀ (patterns : List Str) (path : Str),
      Bypass.stripQuery path = [] → Bypass.bypassMatches patterns path = false) ∧
    Bypass.bypassMatches [] (str "/healthz") = false := by
  refine ⟨?_, ?_, by decide⟩
  · intro path
    unfold Bypass.bypassMatches
    by_cases hp : (Bypass.stripQuery path).isEmpty
    · rw [if_pos hp]
    · rw [if_neg hp]
      simp
  · intro patterns path h
    unfold Bypass.bypassMatches
    rw [if_pos (by simp [h])]

/-- Witness for C5: the second conjunct applied at the empty path and the
default `/healthz` pattern. -/
theorem bypass_empty_semantics_witness :
    Bypass.stripQuery (str "") = [] ∧
    Bypass.bypassMatches [str "/healthz"] (str "") = false :=
  ⟨by decide, bypass_empty_semantics.2.1 [str "/healthz"] (str "") (by decide)⟩

end KagentiExtensions

namespace KagentiExtensions

namespace Processor

/-- Modelled from the spec: a token's `aud` claim "may be a single string or
an array", or be absent altogether. -/
inductive AudClaim where
  | absent : AudClaim
  | single : String → AudClaim
  | many : List String → AudClaim
deriving DecidableEq, Repr

/-- Whether the expected audience appears in the `aud` claim. -/
def AudClaim.containsAud : AudClaim → String → Bool
  | .absent, _ => false
  | .single a, e => a == e
  | .many as, e => as.contains e

/-- The claims of a parsed, signature-checked token that the validator
inspects. -/
structure Token where
  iss : String
  aud : AudClaim
deriving DecidableEq, Repr

/-- Modelled from the spec: the static configuration read once at startup.
An empty `expectedAudience` models the optional variable being unset. -/
structure Config where
  issuer : String
  expectedAudience : String
  patterns : List Str

/-- Modelled from the spec: the Credential Store fields the outbound
exchanger consults; empty strings model missing values. -/
structure CredStore where
  clientID : String
  clientSecret : String
  tokenEndpoint : String
  targetAudience : String
  targetScopes : List String

/-- Modelled from the spec: "the Credential Store is incomplete (missing
client id/secret or token endpoint)". -/
def CredStore.incomplete (s : CredStore) : Bool :=
  s.clientID == "" || s.clientSecret == "" || s.tokenEndpoint == ""

/-- Verdict of the inbound validator state machine. -/
inductive InVerdict where
  | Accepted : InVerdict
  | Rejected : String → InVerdict
deriving DecidableEq, Repr

/-- Modelled from the spec: the inbound validator of §4.4.  `verify`
abstracts Step 2 — parsing and signature verification against the
signing-key cache — returning the token's claims on success and an error
description on any parse/signature/expiry failure. -/
def validateInbound (cfg : Config) (verify : String → Except String Token)
    (authz : Option String) : InVerdict :=
  match authz with
  | none => .Rejected "missing Authorization header"
  | some raw =>
    match verify raw with
    | .error e => .Rejected ("token validation failed: " ++ e)
    | .ok tok =>
      if tok.iss != cfg.issuer then .Rejected "issuer mismatch"
      else if cfg.expectedAudience != "" then
        if tok.aud.containsAud cfg.expectedAudience then .Accepted
        else .Rejected "audience mismatch"
      else .Accepted

/-- Verdict of the outbound exchanger state machine. -/
inductive OutVerdict where
  | Exchanged : String → OutVerdict
  | PassedThrough : String → OutVerdict
deriving DecidableEq, Repr

/-- Modelled from the spec: the outbound exchanger of §4.5.  `exchange`
abstracts the RFC 8693 token-exchange HTTP call: `ok` carries the parsed
access token, `error` covers network errors, non-2xx responses and
malformed bodies. -/
def exchangeOutbound (store : CredStore)
    (exchange : String → Except String String)
    (authz : Option String) : OutVerdict :=
  if store.incomplete then .PassedThrough "incomplete config"
  else
    match authz with
    | none => .PassedThrough "no token"
    | some tok =>
      match exchange tok with
      | .ok newTok => .Exchanged newTok
      | .error e => .PassedThrough ("exchange failed: " ++ e)

/-- A processing session's view of one request: whether the direction marker
header is present, the request path, and the Authorization header value. -/
structure Request where
  hasMarker : Bool
  path : Str
  authorization : Option String

/-- The instruction the processor returns to the proxy: forward (with the
outgoing Authorization value and whether the direction marker was stripped)
or short-circuit with an immediate response. -/
inductive ProcResult where
  | forward : Option String → Bool → ProcResult
  | respond : Nat → String → String → ProcResult
deriving DecidableEq, Repr

/-- Modelled from the spec: the 401 rejection body
`{"error":"unauthorized","message":"<reason>"}`. -/
def jsonError (reason : String) : String :=
  "\x7b\"error\":\"unauthorized\",\"message\":\"" ++ reason ++ "\"\x7d"

/-- Modelled from the spec: the Direction Router of §4.6.  Bypass is
evaluated first for both directions; the marker's presence selects inbound
validation, its absence outbound exchange; a rejection becomes an HTTP 401
JSON response, an acceptance forwards with the marker stripped, and the
outbound path always forwards — with the exchanged token on success and the
original header otherwise. -/
def route (cfg : Config) (store : CredStore)
    (verify : String → Except String Token)
    (exchange : String → Except String String) (req : Request) : ProcResult :=
  if Bypass.bypassMatches cfg.patterns req.path then
    .forward req.authorization false
  else if req.hasMarker then
    match validateInbound cfg verify req.authorization with
    | .Accepted => .forward req.authorization true
    | .Rejected reason => .respond 401 "application/json" (jsonError reason)
  else
    match exchangeOutbound store exchange req.authorization with
    | .Exchanged newTok => .forward (some newTok) false
    | .PassedThrough _ => .forward req.authorization false

end Processor

end KagentiExtensions

namespace KagentiExtensions

open Processor

/-- C1: an inbound request (marker present, bypass negative) without an
Authorization header is answered with HTTP 401 and the JSON unauthorized
body whose message contains "missing Authorization header", and is never
forwarded to the workload. -/
theorem inbound_missing_auth_rejected (cfg : Config) (store : CredStore)
    (verify : String → Except String Token)
    (exchange : String → Except String String) (req : Request)
    (hm : req.hasMarker = true)
    (hb : Bypass.bypassMatches cfg.patterns req.path = false)
    (ha : req.authorization = none) :
    route cfg store verify exchange req =
      .respond 401 "application/json" (jsonError "missing Authorization header") ∧
    str "missing Authorization header" <:+:
      str (jsonError "missing Authorization header") ∧
    ∀ (a : Option String) (m : Bool),
      route cfg store verify exchange req ≠ .forward a m := by
  have hr : route cfg store verify exchange req =
      .respond 401 "application/json" (jsonError "missing Authorization header") := by
    simp [route, validateInbound, hm, hb, ha]
  refine ⟨hr, by decide, ?_⟩
  intro a m
  rw [hr]
  intro hcontra
  exact ProcResult.noConfusion hcontra

/-- Witness for C1 at a concrete configuration and request. -/
theorem inbound_missing_auth_rejected_witness :
    route ⟨"https://issuer", "", []⟩ ⟨"id", "secret", "https://te", "aud", []⟩
        (fun _ => .error "bad") (fun t => .ok t) ⟨true, str "/api/data", none⟩ =
      .respond 401 "application/json" (jsonError "missing Authorization header") :=
  (inbound_missing_auth_rejected ⟨"https://issuer", "", []⟩
    ⟨"id", "secret", "https://te", "aud", []⟩ (fun _ => .error "bad")
    (fun t => .ok t) ⟨true, str "/api/data", none⟩ rfl (by decide) rfl).1

/-- C2: for an inbound, non-bypassed request with a validly-signed token
whose issuer matches: a configured (non-empty) `expectedAudience` absent
from the token's `aud` claim yields a 401 "audience mismatch", while an
unset `expectedAudience` skips the audience step and the token is accepted
regardless of its audience. -/
theorem inbound_audience_gate (cfg : Config) (store : CredStore)
    (verify : String → Except String Token)
    (exchange : String → Except String String) (req : Request)
    (raw : String) (tok : Token)
    (hm : req.hasMarker = true)
    (hb : Bypass.bypassMatches cfg.patterns req.path = false)
    (ha : req.authorization = some raw)
    (hv : verify raw = .ok tok)
    (hi : tok.iss = cfg.issuer) :
    (cfg.expectedAudience ≠ "" →
      tok.aud.containsAud cfg.expectedAudience = false →
      route cfg store verify exchange req =
        .respond 401 "application/json" (jsonError "audience mismatch")) ∧
    (cfg.expectedAudience = "" →
      route cfg store verify exchange req = .forward req.authorization true) := by
  constructor
  · intro hne haud
    simp [route, validateInbound, hm, hb, ha, hv, hi, hne, haud]
  · intro hempty
    simp [route, validateInbound, hm, hb, ha, hv, hi, hempty]

/-- Witness for C2: a token with audience `other` against expected audience
`svc` is rejected; the same request with `expectedAudience` unset is
accepted. -/
theorem inbound_audience_gate_witness :
    route ⟨"https://issuer", "svc", []⟩ ⟨"id", "sec", "https://te", "aud", []⟩
        (fun _ => .ok ⟨"https://issuer", .single "other"⟩) (fun t => .ok t)
        ⟨true, str "/v1/tasks", some "Bearer x"⟩ =
      .respond 401 "application/json" (jsonError "audience mismatch") ∧
    route ⟨"https://issuer", "", []⟩ ⟨"id", "sec", "https://te", "aud", []⟩
        (fun _ => .ok ⟨"https://issuer", .single "other"⟩) (fun t => .ok t)
        ⟨true, str "/v1/tasks", some "Bearer x"⟩ =
      .forward (some "Bearer x") true := by
  constructor
  · exact (inbound_audience_gate ⟨"https://issuer", "svc", []⟩
      ⟨"id", "sec", "https://te", "aud", []⟩
      (fun _ => .ok ⟨"https://issuer", .single "other"⟩) (fun t => .ok t)
      ⟨true, str "/v1/tasks", some "Bearer x"⟩ "Bearer x"
      ⟨"https://issuer", .single "other"⟩ rfl (by decide) rfl rfl rfl).1
      (by decide) (by decide)
  · exact (inbound_audience_gate ⟨"https://issuer", "", []⟩
      ⟨"id", "sec", "https://te", "aud", []⟩
      (fun _ => .ok ⟨"https://issuer", .single "other"⟩) (fun t => .ok t)
      ⟨true, str "/v1/tasks", some "Bearer x"⟩ "Bearer x"
      ⟨"https://issuer", .single "other"⟩ rfl (by decide) rfl rfl rfl).2 rfl

/-- C3: on the outbound path (no marker, bypass negative), whenever the
exchange is not successfully completed — incomplete Credential Store, no
Authorization header, or a failed exchange call — the request is forwarded
with its original Authorization header value unchanged. -/
theorem outbound_fail_open (cfg : Config) (store : CredStore)
    (verify : String → Except String Token)
    (exchange : String → Except String String) (req : Request)
    (hm : req.hasMarker = false)
    (hb : Bypass.bypassMatches cfg.patterns req.path = false)
    (h : store.incomplete = true ∨ req.authorization = none ∨
      ∃ t e, req.authorization = some t ∧ exchange t = .error e) :
    route cfg store verify exchange req = .forward req.authorization false := by
  rcases h with hinc | hnone | ⟨t, e, hsome, hfail⟩
  · simp [route, exchangeOutbound, hm, hb, hinc]
  · by_cases hinc : store.incomplete
    · simp [route, exchangeOutbound, hm, hb, hnone, hinc]
    · simp [route, exchangeOutbound, hm, hb, hnone, hinc]
  · by_cases hinc : store.incomplete
    · simp [route, exchangeOutbound, hm, hb, hinc]
    · simp [route, exchangeOutbound, hm, hb, hinc, hsome, hfail]

/-- Witness for C3: an incomplete store (empty client id) forwards the
original bearer token unchanged. -/
theorem outbound_fail_open_witness :
    route ⟨"https://issuer", "", []⟩ ⟨"", "", "", "aud", []⟩
        (fun _ => .error "bad") (fun _ => .error "connection refused")
        ⟨false, str "/api/data", some "Bearer orig"⟩ =
      .forward (some "Bearer orig") false :=
  outbound_fail_open ⟨"https://issuer", "", []⟩ ⟨"", "", "", "aud", []⟩
    (fun _ => .error "bad") (fun _ => .error "connection refused")
    ⟨false, str "/api/data", some "Bearer orig"⟩ rfl (by decide)
    (Or.inl (by decide))

end KagentiExtensions

namespace KagentiExtensions

namespace KeyCache

/-- Modelled from the spec: the Signing-Key Cache holds a mapping from
key-id to public key material. -/
structure Cache where
  keys : List (String × String)
deriving DecidableEq, Repr

/-- Look a key-id up in the cached set. -/
def lookupKey (c : Cache) (kid : String) : Option String :=
  (c.keys.find? (fun p => p.1 == kid)).map (fun p => p.2)

/-- Failure modes of `resolve`. -/
inductive ResolveError where
  | fetchFailed : String → ResolveError
  | keyNotFound : ResolveError
deriving DecidableEq, Repr

/-- Modelled from the spec: `resolve(keyID)` of §4.2 — return the cached key
on a hit; on a miss fetch the full key set once (`fetch` abstracts the
single network call to the signing-keys endpoint), replace the cached set
atomically, retry the lookup once, and fail with `KeyNotFound` if the key
is still missing.  Returns the result, the cache afterwards, and the number
of fetches performed. -/
def resolve (c : Cache) (fetch : Except String (List (String × String)))
    (kid : String) : Except ResolveError String × Cache × Nat :=
  match lookupKey c kid with
  | some k => (.ok k, c, 0)
  | none =>
    match fetch with
    | .error e => (.error (.fetchFailed e), c, 1)
    | .ok ks =>
      match lookupKey ⟨ks⟩ kid with
      | some k => (.ok k, ⟨ks⟩, 1)
      | none => (.error .keyNotFound, ⟨ks⟩, 1)

end KeyCache

end KagentiExtensions

namespace KagentiExtensions

/-- C6: `resolve(keyID)` returns the cached key on a hit with no network
fetch; on a miss it performs exactly one fetch, replaces the cached set,
retries the lookup exactly once and fails with `KeyNotFound` if the key is
still missing — so a single resolve call performs at most one fetch. -/
theorem keycache_resolve_spec (c : KeyCache.Cache)
    (fetch : Except String (List (String × String))) (kid : String) :
    (KeyCache.resolve c fetch kid).2.2 ≤ 1 ∧
    (∀ k, KeyCache.lookupKey c kid = some k →
      KeyCache.resolve c fetch kid = (.ok k, c, 0)) ∧
    (KeyCache.lookupKey c kid = none →
      (KeyCache.resolve c fetch kid).2.2 = 1 ∧
      ∀ ks, fetch = .ok ks →
        (KeyCache.resolve c fetch kid).2.1 = ⟨ks⟩ ∧
        (∀ k, KeyCache.lookupKey ⟨ks⟩ kid = some k →
          (KeyCache.resolve c fetch kid).1 = .ok k) ∧
        (KeyCache.lookupKey ⟨ks⟩ kid = none →
          (KeyCache.resolve c fetch kid).1 = .error .keyNotFound)) := by
  refine ⟨?_, ?_, ?_⟩
  · unfold KeyCache.resolve
    rcases h1 : KeyCache.lookupKey c kid with _ | k
    · rcases fetch with e | ks
      · simp
      · rcases h2 : KeyCache.lookupKey ⟨ks⟩ kid with _ | k <;> simp [h2]
    · simp
  · intro k hk
    simp [KeyCache.resolve, hk]
  · intro hmiss
    constructor
    · unfold KeyCache.resolve
      rw [hmiss]
      rcases fetch with e | ks
      · simp
      · rcases h2 : KeyCache.lookupKey ⟨ks⟩ kid with _ | k <;> simp [h2]
    · intro ks hks
      refine ⟨?_, ?_, ?_⟩
      · unfold KeyCache.resolve
        rw [hmiss, hks]
        rcases h2 : KeyCache.lookupKey ⟨ks⟩ kid with _ | k <;> simp [h2]
      · intro k hk
        simp [KeyCache.resolve, hmiss, hks, hk]
      · intro h2
        simp [KeyCache.resolve, hmiss, hks, h2]

/-- Witness for C6: a hit returns the cached key without fetching, and a
miss fetches once, installs the fetched set and finds the key there. -/
theorem keycache_resolve_spec_witness :
    KeyCache.resolve ⟨[("k1", "K1")]⟩ (.ok [("k2", "K2")]) "k1" =
      (.ok "K1", ⟨[("k1", "K1")]⟩, 0) ∧
    (KeyCache.resolve ⟨[("k1", "K1")]⟩ (.ok [("k2", "K2")]) "k2").2.2 = 1 ∧
    (KeyCache.resolve ⟨[("k1", "K1")]⟩ (.ok [("k2", "K2")]) "k2").2.1 =
      ⟨[("k2", "K2")]⟩ ∧
    (KeyCache.resolve ⟨[("k1", "K1")]⟩ (.ok [("k2", "K2")]) "k2").1 =
      .ok "K2" := by
  have spec1 := keycache_resolve_spec ⟨[("k1", "K1")]⟩ (.ok [("k2", "K2")]) "k1"
  have spec2 := keycache_resolve_spec ⟨[("k1", "K1")]⟩ (.ok [("k2", "K2")]) "k2"
  have hmiss := spec2.2.2 (by decide)
  have hfetch := hmiss.2 [("k2", "K2")] rfl
  exact ⟨spec1.2.1 "K1" (by decide), hmiss.1, hfetch.1,
    hfetch.2.1 "K2" (by decide)⟩

namespace Bootstrap

/-- One poll of the two credential files: `none` models an absent file,
`some s` its contents (possibly the empty string). -/
abbrev Poll := Nat → Option String × Option String

/-- Whether attempt `i` sees both files present and non-empty. -/
def goodAttempt (poll : Poll) (i : Nat) : Bool :=
  match poll i with
  | (some cid, some csec) => cid != "" && csec != ""
  | _ => false

/-- The credential pair read from the files at attempt `i` (used only when
the attempt is good). -/
def fileValues (poll : Poll) (i : Nat) : String × String :=
  match poll i with
  | (some cid, some csec) => (cid, csec)
  | (some cid, none) => (cid, "")
  | (none, some csec) => ("", csec)
  | (none, none) => ("", "")

/-- Modelled from the spec §4.1: poll for both credential files at a fixed
interval; on each attempt, if both are present and non-empty, read and use
them; when the wait budget is exhausted fall back to the environment
variables (never fatal — a value is always produced).  `fuel` is the number
of attempts remaining in the wait budget, `i` the index of the next
attempt; returns the credentials used and the number of polls performed. -/
def bootstrapAux (poll : Poll) (envID envSecret : String) :
    Nat → Nat → (String × String) × Nat
  | _, 0 => ((envID, envSecret), 0)
  | i, fuel + 1 =>
    if goodAttempt poll i then (fileValues poll i, 1)
    else
      let r := bootstrapAux poll envID envSecret (i + 1) fuel
      (r.1, r.2 + 1)

/-- Credential bootstrap with a wait budget of `maxAttempts` polls. -/
def bootstrap (poll : Poll) (envID envSecret : String) (maxAttempts : Nat) :
    (String × String) × Nat :=
  bootstrapAux poll envID envSecret 0 maxAttempts

theorem bootstrapAux_polls_le (poll : Poll) (envID envSecret : String) :
    ∀ (fuel i : Nat), (bootstrapAux poll envID envSecret i fuel).2 ≤ fuel := by
  intro fuel
  induction fuel with
  | zero => intro i; simp [bootstrapAux]
  | succ n ih =>
    intro i
    unfold bootstrapAux
    by_cases hg : goodAttempt poll i
    · simp [hg]
    · simpa [hg] using ih (i + 1)

theorem bootstrapAux_first_good (poll : Poll) (envID envSecret : String) :
    ∀ (fuel s i : Nat), s ≤ i → i < s + fuel → goodAttempt poll i = true →
      (∀ j, s ≤ j → j < i → goodAttempt poll j = false) →
      (bootstrapAux poll envID envSecret s fuel).1 = fileValues poll i := by
  intro fuel
  induction fuel with
  | zero => intro s i hsi hlt _ _; omega
  | succ n ih =>
    intro s i hsi hlt hgood hfirst
    unfold bootstrapAux
    by_cases hg : goodAttempt poll s
    · have hie : i = s := by
        by_contra hne
        have hslt : s < i := lt_of_le_of_ne hsi (fun h => hne h.symm)
        have := hfirst s le_rfl hslt
        rw [this] at hg
        exact Bool.noConfusion hg
      subst hie
      simp [hg]
    · have hsne : s ≠ i := by
        intro h
        subst h
        rw [hgood] at hg
        exact hg rfl
      have hsi2 : s + 1 ≤ i := Nat.succ_le_of_lt (lt_of_le_of_ne hsi hsne)
      have hlt2 : i < s + 1 + n := by omega
      have hfirst2 : ∀ j, s + 1 ≤ j → j < i → goodAttempt poll j = false :=
        fun j h1 h2 => hfirst j (le_trans (Nat.le_succ s) h1) h2
      simpa [hg] using ih (s + 1) i hsi2 hlt2 hgood hfirst2

theorem bootstrapAux_no_good (poll : Poll) (envID envSecret : String) :
    ∀ (fuel s : Nat), (∀ i, s ≤ i → i < s + fuel → goodAttempt poll i = false) →
      (bootstrapAux poll envID envSecret s fuel).1 = (envID, envSecret) := by
  intro fuel
  induction fuel with
  | zero => intro s _; simp [bootstrapAux]
  | succ n ih =>
    intro s hnone
    have hg : goodAttempt poll s = false := hnone s le_rfl (by omega)
    unfold bootstrapAux
    have := ih (s + 1) (fun i h1 h2 => hnone i (le_trans (Nat.le_succ s) h1) (by omega))
    simpa [hg] using this

end Bootstrap

/-- C7: credential bootstrap performs at most `maxAttempts` polls (so it
stays within the configured wait budget), uses the file contents at the
first attempt where both files are present and non-empty, and falls back to
the environment-variable values when no attempt in the budget succeeds —
always returning a value rather than failing or blocking indefinitely. -/
theorem bootstrap_spec (poll : Bootstrap.Poll) (envID envSecret : String)
    (maxAttempts : Nat) :
    (Bootstrap.bootstrap poll envID envSecret maxAttempts).2 ≤ maxAttempts ∧
    (∀ i, i < maxAttempts → Bootstrap.goodAttempt poll i = true →
      (∀ j, j < i → Bootstrap.goodAttempt poll j = false) →
      (Bootstrap.bootstrap poll envID envSecret maxAttempts).1 =
        Bootstrap.fileValues poll i) ∧
    ((∀ i, i < maxAttempts → Bootstrap.goodAttempt poll i = false) →
      (Bootstrap.bootstrap poll envID envSecret maxAttempts).1 =
        (envID, envSecret)) := by
  refine ⟨Bootstrap.bootstrapAux_polls_le poll envID envSecret maxAttempts 0,
    ?_, ?_⟩
  · intro i hi hgood hfirst
    exact Bootstrap.bootstrapAux_first_good poll envID envSecret maxAttempts 0 i
      (Nat.zero_le i) (by omega) hgood (fun j _ hj => hfirst j hj)
  · intro hnone
    exact Bootstrap.bootstrapAux_no_good poll envID envSecret maxAttempts 0
      (fun i _ hi => hnone i (by omega))

/-- Witness for C7: with files appearing (non-empty) at attempt 1 and a
budget of 3, the file values are used; with files never appearing, the
environment values are used. -/
theorem bootstrap_spec_witness :
    (Bootstrap.bootstrap
        (fun i => if i = 1 then (some "fid", some "fsec") else (none, none))
        "eid" "esec" 3).1 = ("fid", "fsec") ∧
    (Bootstrap.bootstrap (fun _ => (none, none)) "eid" "esec" 3).1 =
      ("eid", "esec") := by
  constructor
  · exact (bootstrap_spec
      (fun i => if i = 1 then (some "fid", some "fsec") else (none, none))
      "eid" "esec" 3).2.1 1 (by decide) (by decide)
      (fun j hj => by
        interval_cases j
        decide)
  · exact (bootstrap_spec (fun _ => (none, none)) "eid" "esec" 3).2.2
      (fun i _ => rfl)

end KagentiExtensions

namespace KagentiExtensions

namespace FetchDedup

/-- Modelled from the spec §4.2/§5: the states of one validation session
that missed the signing-key cache on a given key-id.  `missed`: the session
has observed the miss and not yet acted; `fetching`: it owns the single
in-flight fetch; `waiting`: it waits on the in-flight fetch; `done`: it has
obtained the key. -/
inductive SessionState where
  | missed : SessionState
  | fetching : SessionState
  | waiting : SessionState
  | done : SessionState
deriving DecidableEq, Repr

/-- Global state of the cache under `n` concurrent sessions: each session's
state, whether a fetch is in flight, whether the fetched key set has been
installed in the cache, and how many network fetches were performed. -/
structure SysState (n : Nat) where
  sessions : Fin n → SessionState
  inFlight : Bool
  populated : Bool
  fetchCount : Nat

/-- All `n` sessions have concurrently missed on the same key-id. -/
def init (n : Nat) : SysState n :=
  ⟨fun _ => .missed, false, false, 0⟩

/-- Modelled from the spec: interleaving semantics of the deduplicating
cache.  A missed session finishes directly when the cache was populated
meanwhile; otherwise it starts the fetch only when none is in flight, and
joins the in-flight fetch otherwise.  Completing the fetch installs the key
set and clears the in-flight flag; waiters then finish from the cache.
Sessions step independently, in any interleaving. -/
inductive Step : {n : Nat} → SysState n → SysState n → Prop
  | beginFetch {n : Nat} (s : SysState n) (i : Fin n) :
      s.sessions i = .missed → s.inFlight = false → s.populated = false →
      Step s ⟨Function.update s.sessions i .fetching, true, s.populated,
        s.fetchCount + 1⟩
  | joinWait {n : Nat} (s : SysState n) (i : Fin n) :
      s.sessions i = .missed → s.inFlight = true →
      Step s ⟨Function.update s.sessions i .waiting, s.inFlight, s.populated,
        s.fetchCount⟩
  | hitAfterPopulate {n : Nat} (s : SysState n) (i : Fin n) :
      s.sessions i = .missed → s.populated = true →
      Step s ⟨Function.update s.sessions i .done, s.inFlight, s.populated,
        s.fetchCount⟩
  | completeFetch {n : Nat} (s : SysState n) (i : Fin n) :
      s.sessions i = .fetching →
      Step s ⟨Function.update s.sessions i .done, false, true, s.fetchCount⟩
  | wakeWaiter {n : Nat} (s : SysState n) (i : Fin n) :
      s.sessions i = .waiting → s.populated = true →
      Step s ⟨Function.update s.sessions i .done, s.inFlight, s.populated,
        s.fetchCount⟩

/-- States reachable by interleaved session steps. -/
def Reachable {n : Nat} : SysState n → SysState n → Prop :=
  Relation.ReflTransGen Step

/-- The inductive invariant: at most one owner of the in-flight fetch, no
fetcher when idle, the fetch counter is 0 before the single fetch starts
and 1 from then on, and a finished session implies the cache is
populated. -/
structure Inv {n : Nat} (s : SysState n) : Prop where
  uniqueFetcher : ∀ i j, s.sessions i = .fetching → s.sessions j = .fetching →
    i = j
  idleNoFetcher : s.inFlight = false → ∀ i, s.sessions i ≠ .fetching
  countEq : s.fetchCount = if s.inFlight || s.populated then 1 else 0
  donePopulated : ∀ i, s.sessions i = .done → s.populated = true

theorem inv_init (n : Nat) : Inv (init n) := by
  refine ⟨?_, ?_, ?_, ?_⟩
  · intro i j hi _
    exact absurd hi (by simp [init])
  · intro _ i
    simp [init]
  · simp [init]
  · intro i h
    exact absurd h (by simp [init])

theorem update_eq_inv {n : Nat} (f : Fin n → SessionState) (i j : Fin n)
    (v w : SessionState) (h : Function.update f i v j = w) :
    (j = i ∧ w = v) ∨ (¬j = i ∧ f j = w) := by
  by_cases hji : j = i
  · subst hji
    rw [Function.update_same] at h
    exact Or.inl ⟨rfl, h.symm⟩
  · rw [Function.update_noteq hji] at h
    exact Or.inr ⟨hji, h⟩

theorem inv_step {n : Nat} {s t : SysState n} (hs : Inv s) (hst : Step s t) :
    Inv t := by
  cases hst with
  | beginFetch i hmiss hidle hpop =>
    refine ⟨?_, ?_, ?_, ?_⟩
    · intro a b ha hb
      rcases update_eq_inv s.sessions i a _ _ ha with ⟨hai, _⟩ | ⟨_, holda⟩
      · rcases update_eq_inv s.sessions i b _ _ hb with ⟨hbi, _⟩ | ⟨_, holdb⟩
        · rw [hai, hbi]
        · exact absurd holdb (hs.idleNoFetcher hidle b)
      · exact absurd holda (hs.idleNoFetcher hidle a)
    · intro hfl
      exact absurd hfl (by simp)
    · have h0 : s.fetchCount = 0 := by
        rw [hs.countEq, hidle, hpop]
        simp
      simp [h0, hpop]
    · intro j hj
      rcases update_eq_inv s.sessions i j _ _ hj with ⟨_, hcon⟩ | ⟨_, hold⟩
      · exact absurd hcon (by simp)
      · exact hs.donePopulated j hold
  | joinWait i hmiss hfl =>
    refine ⟨?_, ?_, ?_, ?_⟩
    · intro a b ha hb
      rcases update_eq_inv s.sessions i a _ _ ha with ⟨_, hcon⟩ | ⟨_, holda⟩
      · exact absurd hcon (by simp)
      · rcases update_eq_inv s.sessions i b _ _ hb with ⟨_, hcon⟩ | ⟨_, holdb⟩
        · exact absurd hcon (by simp)
        · exact hs.uniqueFetcher a b holda holdb
    · intro h0
      exact absurd (hfl.symm.trans h0) (by simp)
    · exact hs.countEq
    · intro j hj
      rcases update_eq_inv s.sessions i j _ _ hj with ⟨_, hcon⟩ | ⟨_, hold⟩
      · exact absurd hcon (by simp)
      · exact hs.donePopulated j hold
  | hitAfterPopulate i hmiss hpop =>
    refine ⟨?_, ?_, ?_, ?_⟩
    · intro a b ha hb
      rcases update_eq_inv s.sessions i a _ _ ha with ⟨_, hcon⟩ | ⟨_, holda⟩
      · exact absurd hcon (by simp)
      · rcases update_eq_inv s.sessions i b _ _ hb with ⟨_, hcon⟩ | ⟨_, holdb⟩
        · exact absurd hcon (by simp)
        · exact hs.uniqueFetcher a b holda holdb
    · intro h0 j hj
      rcases update_eq_inv s.sessions i j _ _ hj with ⟨_, hcon⟩ | ⟨_, hold⟩
      · exact absurd hcon (by simp)
      · exact hs.idleNoFetcher h0 j hold
    · exact hs.countEq
    · intro j _
      exact hpop
  | completeFetch i hfetch =>
    have hnofetch : ∀ j, Function.update s.sessions i SessionState.done j ≠
        SessionState.fetching := by
      intro j hj
      rcases update_eq_inv s.sessions i j _ _ hj with ⟨_, hcon⟩ | ⟨hne, hold⟩
      · exact absurd hcon (by simp)
      · exact hne (hs.uniqueFetcher j i hold hfetch)
    refine ⟨?_, ?_, ?_, ?_⟩
    · intro a b ha _
      exact absurd ha (hnofetch a)
    · intro _ j
      exact hnofetch j
    · have hfl : s.inFlight = true := by
        cases h : s.inFlight
        · exact absurd hfetch (hs.idleNoFetcher h i)
        · rfl
      have h1 : s.fetchCount = 1 := by
        rw [hs.countEq, hfl]
        simp
      simp [h1]
    · intro j _
      rfl
  | wakeWaiter i hwait hpop =>
    refine ⟨?_, ?_, ?_, ?_⟩
    · intro a b ha hb
      rcases update_eq_inv s.sessions i a _ _ ha with ⟨_, hcon⟩ | ⟨_, holda⟩
      · exact absurd hcon (by simp)
      · rcases update_eq_inv s.sessions i b _ _ hb with ⟨_, hcon⟩ | ⟨_, holdb⟩
        · exact absurd hcon (by simp)
        · exact hs.uniqueFetcher a b holda holdb
    · intro h0 j hj
      rcases update_eq_inv s.sessions i j _ _ hj with ⟨_, hcon⟩ | ⟨_, hold⟩
      · exact absurd hcon (by simp)
      · exact hs.idleNoFetcher h0 j hold
    · exact hs.countEq
    · intro j _
      exact hpop

theorem inv_reachable {n : Nat} {s : SysState n}
    (h : Reachable (init n) s) : Inv s := by
  induction h with
  | refl => exact inv_init n
  | tail _ hstep ih => exact inv_step ih hstep

end FetchDedup

/-- C8: in every interleaving of `n` concurrent cache misses on the same
key-id, at most one session owns the in-flight fetch at any reachable
state, at most one network fetch has ever been performed, and once every
session has finished exactly one network fetch was performed. -/
theorem keycache_fetch_dedup (n : Nat) (s : FetchDedup.SysState n)
    (h : FetchDedup.Reachable (FetchDedup.init n) s) :
    (∀ i j, s.sessions i = .fetching → s.sessions j = .fetching → i = j) ∧
    s.fetchCount ≤ 1 ∧
    (∀ _i0 : Fin n, (∀ i, s.sessions i = .done) → s.fetchCount = 1) := by
  have hinv := FetchDedup.inv_reachable h
  refine ⟨hinv.uniqueFetcher, ?_, ?_⟩
  · rw [hinv.countEq]
    split <;> omega
  · intro i0 hall
    have hpop := hinv.donePopulated i0 (hall i0)
    rw [hinv.countEq, hpop]
    simp

/-- Witness for C8: a complete interleaving of two concurrent misses —
session 0 starts the fetch, session 1 joins it, the fetch completes, the
waiter wakes — performs exactly one fetch. -/
theorem keycache_fetch_dedup_witness :
    (⟨Function.update (Function.update (Function.update (Function.update
        (fun _ => FetchDedup.SessionState.missed) (0 : Fin 2)
        FetchDedup.SessionState.fetching) (1 : Fin 2)
        FetchDedup.SessionState.waiting) (0 : Fin 2)
        FetchDedup.SessionState.done) (1 : Fin 2)
        FetchDedup.SessionState.done,
      false, true, 1⟩ : FetchDedup.SysState 2).fetchCount = 1 := by
  have hreach : FetchDedup.Reachable (FetchDedup.init 2)
      ⟨Function.update (Function.update (Function.update (Function.update
          (fun _ => FetchDedup.SessionState.missed) (0 : Fin 2)
          FetchDedup.SessionState.fetching) (1 : Fin 2)
          FetchDedup.SessionState.waiting) (0 : Fin 2)
          FetchDedup.SessionState.done) (1 : Fin 2)
          FetchDedup.SessionState.done,
        false, true, 1⟩ :=
    Relation.ReflTransGen.tail (Relation.ReflTransGen.tail
      (Relation.ReflTransGen.tail (Relation.ReflTransGen.tail
        Relation.ReflTransGen.refl
        (FetchDedup.Step.beginFetch (FetchDedup.init 2) 0 (by decide)
          (by decide) (by decide)))
        (FetchDedup.Step.joinWait _ 1 (by decide) (by decide)))
      (FetchDedup.Step.completeFetch _ 0 (by decide)))
      (FetchDedup.Step.wakeWaiter _ 1 (by decide) (by decide))
  exact (keycache_fetch_dedup 2 _ hreach).2.2 0 (by decide)

end KagentiExtensions

namespace KagentiExtensions

namespace Injector

/-- A `corev1.Container`, abstracted to its name (the only field the
injector's deduplication consults) and an opaque payload standing for the
remaining fields. -/
structure Container where
  name : String
  payload : String
deriving DecidableEq, Repr

/-- A `corev1.Volume`, abstracted likewise. -/
structure Volume where
  name : String
  payload : String
deriving DecidableEq, Repr

/-- `corev1.PodSpec`, restricted to the fields `InjectAuthBridge` touches. -/
structure PodSpec where
  serviceAccountName : String
  containers : List Container
  initContainers : List Container
  volumes : List Volume
deriving DecidableEq, Repr

/-- Constant from `pod_mutator.go`. -/
def SpiffeHelperContainerName : String := "spiffe-helper"

/-- Constant from `pod_mutator.go`. -/
def ClientRegistrationContainerName : String := "kagenti-client-registration"

/-- Container name declared in the builder file absent from the snapshot;
the injector log messages name this sidecar "envoy-proxy".  Only its
identity matters to the claims, not its value. -/
def EnvoyProxyContainerName : String := "envoy-proxy"

/-- Container name declared in the builder file absent from the snapshot;
the injector log messages name this sidecar "proxy-init". -/
def ProxyInitContainerName : String := "proxy-init"

/-- Constant from `pod_mutator.go`. -/
def AuthBridgeInjectLabel : String := "kagenti.io/inject"

/-- Constant from `pod_mutator.go`. -/
def AuthBridgeInjectValue : String := "enabled"

/-- Constant from `pod_mutator.go`. -/
def AuthBridgeDisabledValue : String := "disabled"

/-- Constant from `pod_mutator.go`. -/
def KagentiTypeLabel : String := "kagenti.io/type"

/-- Constant from `pod_mutator.go`. -/
def KagentiTypeAgent : String := "agent"

/-- Constant from `pod_mutator.go`. -/
def KagentiTypeTool : String := "tool"

/-- A Go `map[string]string`, as an association list. -/
abbrev Labels := List (String × String)

/-- Map lookup (`v, ok := m[k]` comma-ok form). -/
def lookupLabel (ls : Labels) (k : String) : Option String :=
  (ls.find? (fun p => p.1 == k)).map (fun p => p.2)

/-- Go map indexing `m[k]`, yielding the zero value `""` when absent. -/
def getLabel (ls : Labels) (k : String) : String :=
  (lookupLabel ls k).getD ""

/-- The `ok` of the comma-ok form. -/
def hasLabel (ls : Labels) (k : String) : Bool :=
  (lookupLabel ls k).isSome

/-- The per-sidecar outcome of the precedence evaluator (whose source file
is absent from the snapshot; only the `Inject` flag is consumed by
`InjectAuthBridge`). -/
structure SidecarDecision where
  inject : Bool
deriving DecidableEq, Repr

/-- The four sidecar decisions returned by `Evaluate`. -/
structure Decision where
  envoyProxy : SidecarDecision
  proxyInit : SidecarDecision
  spiffeHelper : SidecarDecision
  clientRegistration : SidecarDecision
deriving DecidableEq, Repr

/-- The collaborators of `InjectAuthBridge` whose implementations are not
in the snapshot (Kubernetes client, precedence evaluator and its
`AnyInjected()`, `ensureServiceAccount`, container/volume builder),
abstracted as a deterministic environment fixed across calls. -/
structure InjectEnv where
  nsFetchOk : Bool
  decision : Decision
  anyInjected : Bool
  ensureSAOk : Bool
  buildEnvoy : Bool → Container
  buildProxyInit : Container
  buildSpiffeHelper : Container
  buildClientReg : Bool → Container
  requiredVolumesSpire : List Volume
  requiredVolumesNoSpire : List Volume

/-- `containerExists` from `pod_mutator.go`. -/
def containerExists (containers : List Container) (name : String) : Bool :=
  containers.any (fun c => c.name == name)

/-- `volumeExists` from `pod_mutator.go`. -/
def volumeExists (volumes : List Volume) (name : String) : Bool :=
  volumes.any (fun v => v.name == name)

/-- One `if decision.X.Inject && !containerExists(list, Name) { append }`
statement from `InjectAuthBridge`. -/
def appendStep (cond : Bool) (nm : String) (c : Container)
    (cs : List Container) : List Container :=
  if cond && !containerExists cs nm then cs ++ [c] else cs

/-- The three appends into `podSpec.Containers` in source order — envoy,
spiffe-helper, client-registration (the source interleaves the independent
`InitContainers` append between them). -/
def injectContainers (env : InjectEnv) (spireEnabled : Bool)
    (cs : List Container) : List Container :=
  appendStep env.decision.clientRegistration.inject
    ClientRegistrationContainerName (env.buildClientReg spireEnabled)
    (appendStep env.decision.spiffeHelper.inject SpiffeHelperContainerName
      env.buildSpiffeHelper
      (appendStep env.decision.envoyProxy.inject EnvoyProxyContainerName
        (env.buildEnvoy spireEnabled) cs))

/-- The single append into `podSpec.InitContainers`. -/
def injectInits (env : InjectEnv) (cs : List Container) : List Container :=
  appendStep env.decision.proxyInit.inject ProxyInitContainerName
    env.buildProxyInit cs

/-- One iteration of the required-volumes loop in `InjectAuthBridge`. -/
def addVolume (vols : List Volume) (vol : Volume) : List Volume :=
  if !volumeExists vols vol.name then vols ++ [vol] else vols

/-- The required-volumes loop of `InjectAuthBridge`: each required volume is
checked against the list as mutated so far. -/
def injectVolumes (required : List Volume) (vols : List Volume) : List Volume :=
  required.foldl addVolume vols

/-- The guard of the `ensureServiceAccount` block: SPIRE enabled and the pod
has no dedicated ServiceAccount yet. -/
def needsSA (env : InjectEnv) (p : PodSpec) : Bool :=
  env.decision.spiffeHelper.inject &&
    (p.serviceAccountName == "" || p.serviceAccountName == "default")

/-- The mutation performed on the pod spec once all guards of
`InjectAuthBridge` have passed: set the ServiceAccount name when needed and
append the decided sidecars, init container and volumes, each only when no
element of that name is present. -/
def applyInjection (env : InjectEnv) (crName : String) (p : PodSpec) : PodSpec :=
  let spireEnabled := env.decision.spiffeHelper.inject
  let spec1 := if needsSA env p then { p with serviceAccountName := crName }
    else p
  { spec1 with
    containers := injectContainers env spireEnabled spec1.containers,
    initContainers := injectInits env spec1.initContainers,
    volumes := injectVolumes
      (if spireEnabled then env.requiredVolumesSpire
       else env.requiredVolumesNoSpire) spec1.volumes }

/-- `InjectAuthBridge` from `pod_mutator.go`: pre-filter on
`kagenti.io/type`, opt-in check on `kagenti.io/inject=enabled`, namespace
fetch, precedence evaluation (`AnyInjected`), ServiceAccount provisioning,
then the conditional injections.  The result triple models the Go
`(bool, error)` return plus the (possibly) mutated pod spec. -/
def InjectAuthBridge (env : InjectEnv) (podSpec : PodSpec) (crName : String)
    (labels : Labels) : Bool × Option String × PodSpec :=
  if !hasLabel labels KagentiTypeLabel ||
      (getLabel labels KagentiTypeLabel != KagentiTypeAgent &&
       getLabel labels KagentiTypeLabel != KagentiTypeTool) then
    (false, none, podSpec)
  else if getLabel labels AuthBridgeInjectLabel != AuthBridgeInjectValue then
    (false, none, podSpec)
  else if !env.nsFetchOk then
    (false, some "failed to fetch namespace", podSpec)
  else if !env.anyInjected then
    (false, none, podSpec)
  else if needsSA env podSpec && !env.ensureSAOk then
    (false, some "failed to ensure service account", podSpec)
  else
    (true, none, applyInjection env crName podSpec)

end Injector

end KagentiExtensions

namespace KagentiExtensions

open Injector

/-- C9: `InjectAuthBridge` returns `(false, nil)` and leaves the pod spec
unchanged unless the labels map `kagenti.io/type` to `agent` or `tool` and
`kagenti.io/inject` to exactly `enabled`; any other `kagenti.io/inject`
value (including `disabled`, an unrecognised value, or the label being
absent) skips injection. -/
theorem inject_gate (env : InjectEnv) (p : Injector.PodSpec) (crName : String)
    (labels : Labels)
    (h : ¬(hasLabel labels KagentiTypeLabel = true ∧
      (getLabel labels KagentiTypeLabel = KagentiTypeAgent ∨
       getLabel labels KagentiTypeLabel = KagentiTypeTool) ∧
      getLabel labels AuthBridgeInjectLabel = AuthBridgeInjectValue)) :
    InjectAuthBridge env p crName labels = (false, none, p) := by
  by_cases hhas : hasLabel labels KagentiTypeLabel = true
  · by_cases htya : getLabel labels KagentiTypeLabel = KagentiTypeAgent
    · by_cases hinj : getLabel labels AuthBridgeInjectLabel = AuthBridgeInjectValue
      · exact absurd ⟨hhas, Or.inl htya, hinj⟩ h
      · simp [InjectAuthBridge, hhas, htya, hinj]
    · by_cases htyt : getLabel labels KagentiTypeLabel = KagentiTypeTool
      · by_cases hinj : getLabel labels AuthBridgeInjectLabel = AuthBridgeInjectValue
        · exact absurd ⟨hhas, Or.inr htyt, hinj⟩ h
        · simp [InjectAuthBridge, hhas, htya, htyt, hinj]
      · simp [InjectAuthBridge, hhas, htya, htyt]
  · have hhas2 : hasLabel labels KagentiTypeLabel = false := by
      cases hc : hasLabel labels KagentiTypeLabel
      · rfl
      · exact absurd hc hhas
    simp [InjectAuthBridge, hhas2]

/-- Witness for C9: a tool workload with `kagenti.io/inject` absent and one
with `kagenti.io/inject=disabled` are both skipped with the pod spec
untouched. -/
theorem inject_gate_witness :
    InjectAuthBridge
      ⟨true, ⟨⟨true⟩, ⟨true⟩, ⟨true⟩, ⟨true⟩⟩, true, true,
        fun _ => ⟨"envoy-proxy", "e"⟩, ⟨"proxy-init", "i"⟩,
        ⟨"spiffe-helper", "s"⟩, fun _ => ⟨"kagenti-client-registration", "c"⟩,
        [], []⟩
      ⟨"", [], [], []⟩ "my-tool" [("kagenti.io/type", "tool")] =
      (false, none, ⟨"", [], [], []⟩) ∧
    InjectAuthBridge
      ⟨true, ⟨⟨true⟩, ⟨true⟩, ⟨true⟩, ⟨true⟩⟩, true, true,
        fun _ => ⟨"envoy-proxy", "e"⟩, ⟨"proxy-init", "i"⟩,
        ⟨"spiffe-helper", "s"⟩, fun _ => ⟨"kagenti-client-registration", "c"⟩,
        [], []⟩
      ⟨"", [], [], []⟩ "my-agent"
      [("kagenti.io/type", "agent"), ("kagenti.io/inject", "disabled")] =
      (false, none, ⟨"", [], [], []⟩) :=
  ⟨inject_gate _ _ "my-tool" [("kagenti.io/type", "tool")] (by decide),
   inject_gate _ _ "my-agent"
     [("kagenti.io/type", "agent"), ("kagenti.io/inject", "disabled")]
     (by decide)⟩

end KagentiExtensions

namespace KagentiExtensions

namespace Injector

theorem bool_eq_false {b : Bool} (h : ¬b = true) : b = false := by
  cases b
  · rfl
  · exact absurd rfl h

theorem containerExists_append_left {cs l : List Container} {nm : String}
    (h : containerExists cs nm = true) :
    containerExists (cs ++ l) nm = true := by
  unfold containerExists at h ⊢
  rw [List.any_append, h, Bool.true_or]

theorem appendStep_mono {cond : Bool} {nm : String} {c : Container}
    {cs : List Container} {nm2 : String} (h : containerExists cs nm2 = true) :
    containerExists (appendStep cond nm c cs) nm2 = true := by
  unfold appendStep
  split
  · exact containerExists_append_left h
  · exact h

theorem appendStep_self {cond : Bool} {nm : String} {c : Container}
    (cs : List Container) (hname : c.name = nm) (hcond : cond = true) :
    containerExists (appendStep cond nm c cs) nm = true := by
  unfold appendStep
  by_cases hex : containerExists cs nm = true
  · simp [hcond, hex]
  · have hex2 : containerExists cs nm = false := bool_eq_false hex
    rw [if_pos (by rw [hcond, hex2]; rfl)]
    unfold containerExists
    rw [List.any_append]
    have hlast : [c].any (fun x => x.name == nm) = true := by simp [hname]
    rw [hlast, Bool.or_true]

theorem appendStep_of_exists {cond : Bool} {nm : String} {c : Container}
    {cs : List Container} (h : containerExists cs nm = true) :
    appendStep cond nm c cs = cs := by
  simp [appendStep, h]

theorem appendStep_of_flag_false {cond : Bool} {nm : String} {c : Container}
    {cs : List Container} (h : cond = false) :
    appendStep cond nm c cs = cs := by
  simp [appendStep, h]

theorem injectContainers_has_envoy (env : InjectEnv) (b : Bool)
    (cs : List Container)
    (hname : (env.buildEnvoy b).name = EnvoyProxyContainerName)
    (hflag : env.decision.envoyProxy.inject = true) :
    containerExists (injectContainers env b cs) EnvoyProxyContainerName
      = true := by
  unfold injectContainers
  exact appendStep_mono (appendStep_mono (appendStep_self cs hname hflag))

theorem injectContainers_has_spiffe (env : InjectEnv) (b : Bool)
    (cs : List Container)
    (hname : env.buildSpiffeHelper.name = SpiffeHelperContainerName)
    (hflag : env.decision.spiffeHelper.inject = true) :
    containerExists (injectContainers env b cs) SpiffeHelperContainerName
      = true := by
  unfold injectContainers
  exact appendStep_mono (appendStep_self _ hname hflag)

theorem injectContainers_has_cr (env : InjectEnv) (b : Bool)
    (cs : List Container)
    (hname : (env.buildClientReg b).name = ClientRegistrationContainerName)
    (hflag : env.decision.clientRegistration.inject = true) :
    containerExists (injectContainers env b cs) ClientRegistrationContainerName
      = true := by
  unfold injectContainers
  exact appendStep_self _ hname hflag

theorem injectContainers_idem (env : InjectEnv) (b : Bool)
    (cs : List Container)
    (hE : (env.buildEnvoy b).name = EnvoyProxyContainerName)
    (hS : env.buildSpiffeHelper.name = SpiffeHelperContainerName)
    (hC : (env.buildClientReg b).name = ClientRegistrationContainerName) :
    injectContainers env b (injectContainers env b cs) =
      injectContainers env b cs := by
  have stepE : appendStep env.decision.envoyProxy.inject
      EnvoyProxyContainerName (env.buildEnvoy b) (injectContainers env b cs) =
      injectContainers env b cs := by
    cases hf : env.decision.envoyProxy.inject
    · exact appendStep_of_flag_false rfl
    · exact appendStep_of_exists (injectContainers_has_envoy env b cs hE hf)
  have stepS : appendStep env.decision.spiffeHelper.inject
      SpiffeHelperContainerName env.buildSpiffeHelper
      (injectContainers env b cs) = injectContainers env b cs := by
    cases hf : env.decision.spiffeHelper.inject
    · exact appendStep_of_flag_false rfl
    · exact appendStep_of_exists (injectContainers_has_spiffe env b cs hS hf)
  have stepC : appendStep env.decision.clientRegistration.inject
      ClientRegistrationContainerName (env.buildClientReg b)
      (injectContainers env b cs) = injectContainers env b cs := by
    cases hf : env.decision.clientRegistration.inject
    · exact appendStep_of_flag_false rfl
    · exact appendStep_of_exists (injectContainers_has_cr env b cs hC hf)
  show appendStep env.decision.clientRegistration.inject
    ClientRegistrationContainerName (env.buildClientReg b)
    (appendStep env.decision.spiffeHelper.inject SpiffeHelperContainerName
      env.buildSpiffeHelper
      (appendStep env.decision.envoyProxy.inject EnvoyProxyContainerName
        (env.buildEnvoy b) (injectContainers env b cs))) =
    injectContainers env b cs
  rw [stepE, stepS, stepC]

theorem injectInits_idem (env : InjectEnv) (cs : List Container)
    (hI : env.buildProxyInit.name = ProxyInitContainerName) :
    injectInits env (injectInits env cs) = injectInits env cs := by
  show appendStep env.decision.proxyInit.inject ProxyInitContainerName
    env.buildProxyInit (injectInits env cs) = injectInits env cs
  cases hf : env.decision.proxyInit.inject
  · exact appendStep_of_flag_false rfl
  · exact appendStep_of_exists (appendStep_self cs hI hf)

theorem volumeExists_append_left {vols l : List Volume} {nm : String}
    (h : volumeExists vols nm = true) : volumeExists (vols ++ l) nm = true := by
  unfold volumeExists at h ⊢
  rw [List.any_append, h, Bool.true_or]

theorem addVolume_mono {vols : List Volume} {vol : Volume} {nm : String}
    (h : volumeExists vols nm = true) :
    volumeExists (addVolume vols vol) nm = true := by
  unfold addVolume
  split
  · exact volumeExists_append_left h
  · exact h

theorem addVolume_self (vols : List Volume) (vol : Volume) :
    volumeExists (addVolume vols vol) vol.name = true := by
  unfold addVolume
  by_cases h : volumeExists vols vol.name = true
  · simp [h]
  · have h2 : volumeExists vols vol.name = false := bool_eq_false h
    rw [if_pos (by rw [h2]; rfl)]
    unfold volumeExists
    rw [List.any_append]
    have hlast : [vol].any (fun v => v.name == vol.name) = true := by simp
    rw [hlast, Bool.or_true]

theorem addVolume_of_exists {vols : List Volume} {vol : Volume}
    (h : volumeExists vols vol.name = true) : addVolume vols vol = vols := by
  simp [addVolume, h]

theorem injectVolumes_mono {required : List Volume} :
    ∀ {vols : List Volume} {nm : String}, volumeExists vols nm = true →
      volumeExists (injectVolumes required vols) nm = true := by
  induction required with
  | nil => intro vols nm h; exact h
  | cons v0 rest ih =>
    intro vols nm h
    show volumeExists (injectVolumes rest (addVolume vols v0)) nm = true
    exact ih (addVolume_mono h)

theorem injectVolumes_has_mem {required : List Volume} :
    ∀ {vols : List Volume} {v : Volume}, v ∈ required →
      volumeExists (injectVolumes required vols) v.name = true := by
  induction required with
  | nil => intro vols v hv; cases hv
  | cons v0 rest ih =>
    intro vols v hv
    rcases List.mem_cons.mp hv with rfl | hmem
    · show volumeExists (injectVolumes rest (addVolume vols v)) v.name = true
      exact injectVolumes_mono (addVolume_self vols v)
    · show volumeExists (injectVolumes rest (addVolume vols v0)) v.name = true
      exact ih hmem

theorem injectVolumes_of_all_exist {required : List Volume} :
    ∀ {vols : List Volume},
      (∀ v ∈ required, volumeExists vols v.name = true) →
      injectVolumes required vols = vols := by
  induction required with
  | nil => intro vols _; rfl
  | cons v0 rest ih =>
    intro vols h
    show injectVolumes rest (addVolume vols v0) = vols
    rw [addVolume_of_exists (h v0 (List.mem_cons_self v0 rest))]
    exact ih (fun v hv => h v (List.mem_cons_of_mem v0 hv))

theorem injectVolumes_idem (required vols : List Volume) :
    injectVolumes required (injectVolumes required vols) =
      injectVolumes required vols :=
  injectVolumes_of_all_exist (fun _ hv => injectVolumes_has_mem hv)

theorem filter_appendStep {cond : Bool} {stepNm : String} {c : Container}
    {cs : List Container} {nm : String} (hc : c.name = stepNm)
    (hex : containerExists cs nm = true) :
    (appendStep cond stepNm c cs).filter (fun x => x.name == nm) =
      cs.filter (fun x => x.name == nm) := by
  by_cases heq : stepNm = nm
  · subst heq
    rw [appendStep_of_exists hex]
  · unfold appendStep
    split
    · rw [List.filter_append]
      have hbeq : (c.name == nm) = false := by
        rw [hc]
        exact beq_eq_false_iff_ne.mpr heq
      have hone : List.filter (fun x => x.name == nm) [c] = [] := by
        simp [hbeq]
      rw [hone, List.append_nil]
    · rfl

theorem filter_injectContainers (env : InjectEnv) (b : Bool)
    (cs : List Container) (nm : String)
    (hE : (env.buildEnvoy b).name = EnvoyProxyContainerName)
    (hS : env.buildSpiffeHelper.name = SpiffeHelperContainerName)
    (hC : (env.buildClientReg b).name = ClientRegistrationContainerName)
    (hex : containerExists cs nm = true) :
    (injectContainers env b cs).filter (fun x => x.name == nm) =
      cs.filter (fun x => x.name == nm) := by
  unfold injectContainers
  rw [filter_appendStep hC (appendStep_mono (appendStep_mono hex)),
    filter_appendStep hS (appendStep_mono hex), filter_appendStep hE hex]

theorem filter_injectInits (env : InjectEnv) (cs : List Container)
    (nm : String) (hI : env.buildProxyInit.name = ProxyInitContainerName)
    (hex : containerExists cs nm = true) :
    (injectInits env cs).filter (fun x => x.name == nm) =
      cs.filter (fun x => x.name == nm) :=
  filter_appendStep hI hex

theorem filter_addVolume {vols : List Volume} {vol : Volume} {nm : String}
    (hex : volumeExists vols nm = true) :
    (addVolume vols vol).filter (fun v => v.name == nm) =
      vols.filter (fun v => v.name == nm) := by
  by_cases heq : vol.name = nm
  · rw [addVolume_of_exists (by rw [heq]; exact hex)]
  · unfold addVolume
    split
    · rw [List.filter_append]
      have hbeq : (vol.name == nm) = false := beq_eq_false_iff_ne.mpr heq
      have hone : List.filter (fun v => v.name == nm) [vol] = [] := by
        simp [hbeq]
      rw [hone, List.append_nil]
    · rfl

theorem filter_injectVolumes {required : List Volume} :
    ∀ {vols : List Volume} {nm : String}, volumeExists vols nm = true →
      (injectVolumes required vols).filter (fun v => v.name == nm) =
        vols.filter (fun v => v.name == nm) := by
  induction required with
  | nil => intro vols nm _; rfl
  | cons v0 rest ih =>
    intro vols nm hex
    show (injectVolumes rest (addVolume vols v0)).filter (fun v => v.name == nm)
      = vols.filter (fun v => v.name == nm)
    rw [ih (addVolume_mono hex), filter_addVolume hex]

theorem applyInjection_containers (env : InjectEnv) (crName : String)
    (p : PodSpec) :
    (applyInjection env crName p).containers =
      injectContainers env env.decision.spiffeHelper.inject p.containers := by
  simp only [applyInjection]
  split <;> rfl

theorem applyInjection_inits (env : InjectEnv) (crName : String)
    (p : PodSpec) :
    (applyInjection env crName p).initContainers =
      injectInits env p.initContainers := by
  simp only [applyInjection]
  split <;> rfl

theorem applyInjection_volumes (env : InjectEnv) (crName : String)
    (p : PodSpec) :
    (applyInjection env crName p).volumes =
      injectVolumes
        (if env.decision.spiffeHelper.inject then env.requiredVolumesSpire
         else env.requiredVolumesNoSpire) p.volumes := by
  simp only [applyInjection]
  split <;> split <;> rfl

theorem applyInjection_sa (env : InjectEnv) (crName : String) (p : PodSpec) :
    (applyInjection env crName p).serviceAccountName =
      if needsSA env p then crName else p.serviceAccountName := by
  simp only [applyInjection]
  split <;> rfl

theorem inject_main (env : InjectEnv) (p : PodSpec) (crName : String)
    (labels : Labels)
    (hc1 : (!hasLabel labels KagentiTypeLabel ||
      (getLabel labels KagentiTypeLabel != KagentiTypeAgent &&
       getLabel labels KagentiTypeLabel != KagentiTypeTool)) = false)
    (hc2 : (getLabel labels AuthBridgeInjectLabel != AuthBridgeInjectValue)
      = false)
    (hns : env.nsFetchOk = true)
    (hany : env.anyInjected = true)
    (hsa : (needsSA env p && !env.ensureSAOk) = false) :
    InjectAuthBridge env p crName labels =
      (true, none, applyInjection env crName p) := by
  simp [InjectAuthBridge, hc1, hc2, hns, hany, hsa]

theorem inject_saFail (env : InjectEnv) (p : PodSpec) (crName : String)
    (labels : Labels)
    (hc1 : (!hasLabel labels KagentiTypeLabel ||
      (getLabel labels KagentiTypeLabel != KagentiTypeAgent &&
       getLabel labels KagentiTypeLabel != KagentiTypeTool)) = false)
    (hc2 : (getLabel labels AuthBridgeInjectLabel != AuthBridgeInjectValue)
      = false)
    (hns : env.nsFetchOk = true)
    (hany : env.anyInjected = true)
    (hsa : (needsSA env p && !env.ensureSAOk) = true) :
    InjectAuthBridge env p crName labels =
      (false, some "failed to ensure service account", p) := by
  simp [InjectAuthBridge, hc1, hc2, hns, hany, hsa]

end Injector

end KagentiExtensions

namespace KagentiExtensions

open Injector

/-- C10: `InjectAuthBridge` appends a sidecar container, init container or
volume only when no element with that name is already present — containers,
init containers and volumes carrying a name present in the input pod spec
are exactly preserved — and applying `InjectAuthBridge` a second time to
its own output leaves the Containers, InitContainers and Volumes lists
unchanged, so no duplicates are ever produced.  The name hypotheses record
that each builder (whose source file is absent from the snapshot) names its
container as checked by `containerExists`, as the builder tests assert. -/
theorem inject_idempotent (env : InjectEnv) (p : Injector.PodSpec)
    (crName : String) (labels : Labels)
    (hE : ∀ b, (env.buildEnvoy b).name = EnvoyProxyContainerName)
    (hI : env.buildProxyInit.name = ProxyInitContainerName)
    (hS : env.buildSpiffeHelper.name = SpiffeHelperContainerName)
    (hC : ∀ b, (env.buildClientReg b).name = ClientRegistrationContainerName) :
    (((InjectAuthBridge env (InjectAuthBridge env p crName labels).2.2
        crName labels).2.2).containers =
      ((InjectAuthBridge env p crName labels).2.2).containers ∧
     ((InjectAuthBridge env (InjectAuthBridge env p crName labels).2.2
        crName labels).2.2).initContainers =
      ((InjectAuthBridge env p crName labels).2.2).initContainers ∧
     ((InjectAuthBridge env (InjectAuthBridge env p crName labels).2.2
        crName labels).2.2).volumes =
      ((InjectAuthBridge env p crName labels).2.2).volumes) ∧
    (∀ nm, containerExists p.containers nm = true →
      ((InjectAuthBridge env p crName labels).2.2).containers.filter
          (fun c => c.name == nm) =
        p.containers.filter (fun c => c.name == nm)) ∧
    (∀ nm, containerExists p.initContainers nm = true →
      ((InjectAuthBridge env p crName labels).2.2).initContainers.filter
          (fun c => c.name == nm) =
        p.initContainers.filter (fun c => c.name == nm)) ∧
    (∀ nm, volumeExists p.volumes nm = true →
      ((InjectAuthBridge env p crName labels).2.2).volumes.filter
          (fun v => v.name == nm) =
        p.volumes.filter (fun v => v.name == nm)) := by
  by_cases hc1 : (!hasLabel labels KagentiTypeLabel ||
      (getLabel labels KagentiTypeLabel != KagentiTypeAgent &&
       getLabel labels KagentiTypeLabel != KagentiTypeTool)) = true
  · have hrun : ∀ q, InjectAuthBridge env q crName labels = (false, none, q) :=
      fun q => by simp [InjectAuthBridge, hc1]
    refine ⟨⟨?_, ?_, ?_⟩, ?_, ?_, ?_⟩ <;> simp [hrun]
  · have hc1f := Injector.bool_eq_false hc1
    by_cases hc2 : (getLabel labels AuthBridgeInjectLabel !=
        AuthBridgeInjectValue) = true
    · have hrun : ∀ q, InjectAuthBridge env q crName labels =
          (false, none, q) :=
        fun q => by simp [InjectAuthBridge, hc1f, hc2]
      refine ⟨⟨?_, ?_, ?_⟩, ?_, ?_, ?_⟩ <;> simp [hrun]
    · have hc2f := Injector.bool_eq_false hc2
      by_cases hns : env.nsFetchOk = true
      · by_cases hany : env.anyInjected = true
        · by_cases hsa1 : (needsSA env p && !env.ensureSAOk) = true
          · have hr1 := inject_saFail env p crName labels hc1f hc2f hns hany
              hsa1
            refine ⟨⟨?_, ?_, ?_⟩, ?_, ?_, ?_⟩ <;> simp [hr1]
          · have hsa1f := Injector.bool_eq_false hsa1
            have hr1 := inject_main env p crName labels hc1f hc2f hns hany
              hsa1f
            have hsa2 : (needsSA env (applyInjection env crName p) &&
                !env.ensureSAOk) = false := by
              cases hok : env.ensureSAOk
              · have hn : needsSA env p = false := by
                  have h0 := hsa1f
                  rw [hok] at h0
                  simpa using h0
                have hSAeq : (applyInjection env crName p).serviceAccountName
                    = p.serviceAccountName := by
                  rw [applyInjection_sa, hn]
                  simp
                have hsame : needsSA env (applyInjection env crName p) =
                    needsSA env p := by
                  unfold needsSA
                  rw [hSAeq]
                rw [hsame, hn]
                rfl
              · simp [hok]
            have hr2 := inject_main env (applyInjection env crName p) crName
              labels hc1f hc2f hns hany hsa2
            refine ⟨⟨?_, ?_, ?_⟩, ?_, ?_, ?_⟩
            · simp only [hr1, hr2, applyInjection_containers]
              exact injectContainers_idem env _ p.containers (hE _) hS (hC _)
            · simp only [hr1, hr2, applyInjection_inits]
              exact injectInits_idem env p.initContainers hI
            · simp only [hr1, hr2, applyInjection_volumes]
              exact injectVolumes_idem _ p.volumes
            · intro nm hex
              simp only [hr1, applyInjection_containers]
              exact filter_injectContainers env _ p.containers nm (hE _) hS
                (hC _) hex
            · intro nm hex
              simp only [hr1, applyInjection_inits]
              exact filter_injectInits env p.initContainers nm hI hex
            · intro nm hex
              simp only [hr1, applyInjection_volumes]
              exact filter_injectVolumes hex
        · have hanyf := Injector.bool_eq_false hany
          have hrun : ∀ q, InjectAuthBridge env q crName labels =
              (false, none, q) :=
            fun q => by simp [InjectAuthBridge, hc1f, hc2f, hns, hanyf]
          refine ⟨⟨?_, ?_, ?_⟩, ?_, ?_, ?_⟩ <;> simp [hrun]
      · have hnsf := Injector.bool_eq_false hns
        have hrun : ∀ q, InjectAuthBridge env q crName labels =
            (false, some "failed to fetch namespace", q) :=
          fun q => by simp [InjectAuthBridge, hc1f, hc2f, hnsf]
        refine ⟨⟨?_, ?_, ?_⟩, ?_, ?_, ?_⟩ <;> simp [hrun]

/-- Witness for C10: injecting twice into an agent pod carrying one
application container leaves the container list of the first injection
unchanged. -/
theorem inject_idempotent_witness :
    ((InjectAuthBridge
        ⟨true, ⟨⟨true⟩, ⟨true⟩, ⟨true⟩, ⟨true⟩⟩, true, true,
          fun _ => ⟨"envoy-proxy", "e"⟩, ⟨"proxy-init", "i"⟩,
          ⟨"spiffe-helper", "s"⟩,
          fun _ => ⟨"kagenti-client-registration", "c"⟩,
          [⟨"svid-output", "v"⟩], []⟩
        (InjectAuthBridge
          ⟨true, ⟨⟨true⟩, ⟨true⟩, ⟨true⟩, ⟨true⟩⟩, true, true,
            fun _ => ⟨"envoy-proxy", "e"⟩, ⟨"proxy-init", "i"⟩,
            ⟨"spiffe-helper", "s"⟩,
            fun _ => ⟨"kagenti-client-registration", "c"⟩,
            [⟨"svid-output", "v"⟩], []⟩
          ⟨"", [⟨"app", "a"⟩], [], []⟩ "my-agent"
          [("kagenti.io/type", "agent"), ("kagenti.io/inject", "enabled")]).2.2
        "my-agent"
        [("kagenti.io/type", "agent"),
         ("kagenti.io/inject", "enabled")]).2.2).containers =
      ((InjectAuthBridge
        ⟨true, ⟨⟨true⟩, ⟨true⟩, ⟨true⟩, ⟨true⟩⟩, true, true,
          fun _ => ⟨"envoy-proxy", "e"⟩, ⟨"proxy-init", "i"⟩,
          ⟨"spiffe-helper", "s"⟩,
          fun _ => ⟨"kagenti-client-registration", "c"⟩,
          [⟨"svid-output", "v"⟩], []⟩
        ⟨"", [⟨"app", "a"⟩], [], []⟩ "my-agent"
        [("kagenti.io/type", "agent"),
         ("kagenti.io/inject", "enabled")]).2.2).containers :=
  (inject_idempotent
    ⟨true, ⟨⟨true⟩, ⟨true⟩, ⟨true⟩, ⟨true⟩⟩, true, true,
      fun _ => ⟨"envoy-proxy", "e"⟩, ⟨"proxy-init", "i"⟩,
      ⟨"spiffe-helper", "s"⟩, fun _ => ⟨"kagenti-client-registration", "c"⟩,
      [⟨"svid-output", "v"⟩], []⟩
    ⟨"", [⟨"app", "a"⟩], [], []⟩ "my-agent"
    [("kagenti.io/type", "agent"), ("kagenti.io/inject", "enabled")]
    (fun _ => rfl) rfl rfl (fun _ => rfl)).1.1

end KagentiExtensions
